import Mathlib

/-!
Verification of the synology-alert-captures utilities.

Two of the repository's scripts are embedded shallowly here:

* `send_mock_alerts.py` (the Alert Replayer) as namespace `SendMockAlerts`:
  fixtures are an association list in dictionary insertion order, the
  webhook transport is an oracle from fixture name to an HTTP outcome, and
  the main loop is a recursive function producing the list of observable
  events (webhook POSTs, dry-run report lines, sleeps) together with the
  success/failure counters and the process exit code.

* `trigger_alerts_api.py` (the Managed API Session Client) as namespace
  `TriggerAlertsApi`: the server is an oracle from the constructed API call
  to a transport-level outcome, `_request` converts that outcome to the
  parsed response dictionary, and `apiMain` replays `main`'s control flow,
  producing the exit code and the trace of API calls actually issued.

Python string truthiness (`if s:` over `Optional[str]`) and `str.lower`
are modelled by `truthy` and `lowerStr` below; Python's `in` on strings by
`strHasSub`.
-/

/-- Python truthiness of an `Optional[str]`: `None` and the empty string are
falsy; a non-empty string is kept. -/
def truthy : Option String → Option String
  | none => none
  | some s => if s.isEmpty then none else some s

/-- Model of Python `str.lower`: lower-case every character. -/
def lowerStr (s : String) : String := String.mk (s.data.map Char.toLower)

/-- Whether `hay` starts with `needle` (character lists). -/
def listStarts : List Char → List Char → Bool
  | [], _ => true
  | _ :: _, [] => false
  | c :: ns, d :: hs => c == d && listStarts ns hs

/-- Whether `needle` occurs contiguously inside `hay` (character lists),
the semantics of Python's `in` on strings. -/
def listHasSub (needle : List Char) : List Char → Bool
  | [] => listStarts needle []
  | d :: hs => listStarts needle (d :: hs) || listHasSub needle hs

/-- Python `sub in s` for strings. -/
def strHasSub (s sub : String) : Bool := listHasSub sub.data s.data

/-- Lexicographic order on character lists by code point, the order Python
uses to compare strings. -/
def charListLt : List Char → List Char → Bool
  | _, [] => false
  | [], _ :: _ => true
  | c :: cs, d :: ds => c.toNat < d.toNat || (c.toNat == d.toNat && charListLt cs ds)

/-- Python `a < b` on strings. -/
def strLt (a b : String) : Bool := charListLt a.data b.data

namespace SendMockAlerts

/-- One loaded mock-alert fixture: the `level`, `category` and `body` fields
of its JSON file.  `level`/`category` are `Option` because the script reads
them with `dict.get`; the body is kept opaque. -/
structure Alert where
  level : Option String
  category : Option String
  body : String
  deriving Repr, DecidableEq

/-- The outcome of one `requests.post` to the webhook: a response with a
status code, or a raised `requests.RequestException`. -/
inductive SendOutcome where
  | status (code : Nat)
  | exc (msg : String)
  deriving Repr, DecidableEq

/-- `send_alert`: true exactly when the POST returned and its status code is
one of 200/201/202/204; any other status or a transport exception is false. -/
def send_alert (outcome : SendOutcome) : Bool :=
  match outcome with
  | .status code => [200, 201, 202, 204].contains code
  | .exc _ => false

/-- The command-line arguments the replayer's behaviour depends on
(`--type`, `--category`, `--level`, `--delay`, `--list`, `--dry-run`). -/
structure Args where
  type : Option String
  category : Option String
  level : Option String
  delay : ℚ
  listMode : Bool
  dryRun : Bool
  deriving Repr, DecidableEq

/-- The filter loop's keep-condition for one fixture: negation of the three
`continue` guards of `main` (exact name when `--type` is truthy,
case-insensitive category equality when `--category` is truthy, exact level
when `--level` is truthy). -/
def keepAlert (args : Args) (name : String) (alert : Alert) : Bool :=
  ((truthy args.type).all fun t => name == t) &&
  ((truthy args.category).all fun c =>
    lowerStr (alert.category.getD "") == lowerStr c) &&
  ((truthy args.level).all fun l => alert.level == some l)

/-- The `filtered` dictionary: the loaded fixtures that survive every
supplied filter, in dictionary insertion order. -/
def filterAlerts (args : Args) (alerts : List (String × Alert)) :
    List (String × Alert) :=
  alerts.filter (fun p => keepAlert args p.1 p.2)

/-- Insert one named fixture into a list sorted by name (ascending). -/
def insertByName (p : String × Alert) :
    List (String × Alert) → List (String × Alert)
  | [] => [p]
  | q :: rest => if strLt q.1 p.1 then q :: insertByName p rest else p :: q :: rest

/-- Model of `sorted(filtered.items())`: since dictionary keys are distinct,
Python's tuple order on the items is the lexicographic order of the names. -/
def sortByName : List (String × Alert) → List (String × Alert)
  | [] => []
  | p :: rest => insertByName p (sortByName rest)

/-- One observable step of the replayer's main loop: a webhook POST, a
dry-run `Would send` report line, or a `time.sleep(delay)`. -/
inductive Event where
  | post (name : String)
  | wouldSend (name : String)
  | sleep
  deriving Repr, DecidableEq

/-- What a run of the main loop produces: the events in order and the
`results` success/failure counters. -/
structure LoopOut where
  events : List Event
  success : Nat
  failed : Nat
  deriving Repr, DecidableEq

/-- The body of `for name, alert in sorted(filtered.items())`.  `outcome`
is the webhook transport oracle; `lastKey` is `list(filtered.keys())[-1]`,
computed on the unsorted dictionary before the loop runs (insertion order),
which the delay guard compares each name against. -/
def runLoop (dryRun : Bool) (delay : ℚ) (outcome : String → SendOutcome)
    (lastKey : Option String) : List (String × Alert) → LoopOut
  | [] => ⟨[], 0, 0⟩
  | (name, _alert) :: rest =>
    let r := runLoop dryRun delay outcome lastKey rest
    if dryRun then
      ⟨.wouldSend name :: r.events, r.success + 1, r.failed⟩
    else
      let ok := send_alert (outcome name)
      let tail :=
        if 0 < delay ∧ some name ≠ lastKey then Event.sleep :: r.events
        else r.events
      ⟨.post name :: tail,
        if ok then r.success + 1 else r.success,
        if ok then r.failed else r.failed + 1⟩

/-- A whole run of the replayer: exit code, events, counters. -/
structure MainOut where
  exitCode : Nat
  events : List Event
  success : Nat
  failed : Nat
  deriving Repr, DecidableEq

/-- The replayer's `main`, from the point where the fixtures are loaded:
empty load exits 1; `--list` prints the catalogue and exits 0; an empty
filtered subset exits 1 with no network I/O; otherwise the loop over the
sorted filtered items runs and the exit code is 0 exactly when the failure
counter is 0. -/
def main (args : Args) (alerts : List (String × Alert))
    (outcome : String → SendOutcome) : MainOut :=
  if alerts.isEmpty then ⟨1, [], 0, 0⟩
  else if args.listMode then ⟨0, [], 0, 0⟩
  else
    let filtered := filterAlerts args alerts
    if filtered.isEmpty then ⟨1, [], 0, 0⟩
    else
      let lastKey := (filtered.map Prod.fst).getLast?
      let r := runLoop args.dryRun args.delay outcome lastKey (sortByName filtered)
      ⟨if r.failed == 0 then 0 else 1, r.events, r.success, r.failed⟩

end SendMockAlerts

namespace TriggerAlertsApi

/-- One entry of `data.list` in the webhook-provider listing response; the
script reads `profile_id` with `dict.get(..., 1)`. -/
structure Provider where
  profile_id : Option Nat
  deriving Repr, DecidableEq

/-- One value of the `data` mapping in the `SYNO.API.Info` query response:
the fields the discovery loop reads with `dict.get`. -/
structure ApiMeta where
  path : Option String
  minVersion : Option Nat
  maxVersion : Option Nat
  deriving Repr, DecidableEq

/-- The parsed JSON body of a management-API response, restricted to the
fields the script reads: the `success` flag, `data.sid` (present on a
successful login per the auth interface), `data.list` (webhook provider
listing), the `data` mapping of the API-info query, and `error`.  Fields
irrelevant to a given endpoint default and are ignored. -/
structure SynoResponse where
  success : Bool
  sid : String := ""
  provList : List Provider := []
  apis : List (String × ApiMeta) := []
  error : Option String := none
  deriving Repr, DecidableEq

/-- The transport-level outcome of one `requests.post` in `_request`: a
raised `requests.RequestException` (connection error or timeout), or a
response with an HTTP status code and a parsed body. -/
inductive HttpResult where
  | exc (msg : String)
  | resp (status : Nat) (body : SynoResponse)
  deriving Repr, DecidableEq

/-- The statuses for which `response.raise_for_status()` raises
`requests.HTTPError`: 4xx and 5xx. -/
def statusError (status : Nat) : Bool := 400 ≤ status && status < 600

/-- Canonical rendering of `str(e)` for the `HTTPError` that
`raise_for_status` raises. -/
def httpErrorMsg (status : Nat) : String := "HTTP Error " ++ toString status

/-- The `try`/`except` body of `_request`: a raised `RequestException`
(transport exception, or `HTTPError` from `raise_for_status` on a 4xx/5xx
status) becomes `{"success": False, "error": str(e)}`; otherwise the parsed
body is returned unchanged.  The function is total: no failure escapes as
an exception. -/
def _request (t : HttpResult) : SynoResponse :=
  match t with
  | .exc msg => { success := false, error := some msg }
  | .resp status body =>
    if statusError status then { success := false, error := some (httpErrorMsg status) }
    else body

/-- The client's mutable state: `self.session_id`. -/
structure Client where
  sessionId : Option String
  deriving Repr, DecidableEq

/-- The request `_request` constructs: the `data` form fields (`api`,
`version`, `method`, call-specific parameters) plus the URL path, with
`_sid` attached exactly when `self.session_id` is truthy. -/
structure ApiCall where
  api : String
  path : String
  method : String
  version : Nat
  params : List (String × String) := []
  sid : Option String := none
  deriving Repr, DecidableEq

/-- Build the `ApiCall` that `_request` would issue from client state `c`. -/
def mkCall (c : Client) (api path method : String) (version : Nat)
    (params : List (String × String) := []) : ApiCall :=
  { api := api, path := path, method := method, version := version,
    params := params, sid := truthy c.sessionId }

/-- A server oracle: what the transport returns for each issued call. -/
def Env : Type := ApiCall → HttpResult

/-- Issue one call against the server oracle and parse it as `_request`
does. -/
def doRequest (env : Env) (call : ApiCall) : SynoResponse := _request (env call)

/-- The login call (`SYNO.API.Auth`/`login`, version 6) built from client
state `c`. -/
def loginAuthCall (c : Client) (username password : String) : ApiCall :=
  mkCall c "SYNO.API.Auth" "auth.cgi" "login" 6
    [("account", username), ("passwd", password),
     ("session", "NotificationTrigger"), ("format", "sid")]

/-- `login`: issue the auth call; on `success` store `data.sid` as the
session id and return true, otherwise leave the client unchanged and
return false.  Also returns the list of calls issued. -/
def login (env : Env) (c : Client) (username password : String) :
    Client × Bool × List ApiCall :=
  let call := loginAuthCall c username password
  let r := doRequest env call
  if r.success then ({ c with sessionId := some r.sid }, true, [call])
  else (c, false, [call])

/-- The logout call built from client state `c`. -/
def logoutAuthCall (c : Client) : ApiCall :=
  mkCall c "SYNO.API.Auth" "auth.cgi" "logout" 1 [("session", "NotificationTrigger")]

/-- `logout`: issues the logout request only when `self.session_id` is
truthy, then clears it.  The response is discarded, so the returned trace
records the call without consulting the oracle. -/
def logout (_env : Env) (c : Client) : Client × List ApiCall :=
  match truthy c.sessionId with
  | some _ => ({ c with sessionId := none }, [logoutAuthCall c])
  | none => (c, [])

/-- The `SYNO.API.Info` query call of `get_api_info`. -/
def infoCall (c : Client) : ApiCall :=
  mkCall c "SYNO.API.Info" "query.cgi" "query" 1 [("query", "all")]

/-- The push-test call of `test_push_notification`. -/
def pushTestCall (c : Client) : ApiCall :=
  mkCall c "SYNO.Core.Notification.Push" "entry.cgi" "send_test" 1

/-- The per-provider webhook-test call of `test_webhook_notification`. -/
def webhookTestCall (c : Client) (profile_id : Nat) : ApiCall :=
  mkCall c "SYNO.Core.Notification.Push.Webhook.Provider" "entry.cgi" "send_test" 2
    [("profile_id", toString profile_id)]

/-- The provider-listing call of `list_webhook_providers`. -/
def providersListCall (c : Client) : ApiCall :=
  mkCall c "SYNO.Core.Notification.Push.Webhook.Provider" "entry.cgi" "list" 2

/-- The mail-test call of `test_mail_notification` (defined by the script
but, as proved below, never issued by the default mode). -/
def mailTestCall (c : Client) : ApiCall :=
  mkCall c "SYNO.Core.Notification.Mail" "entry.cgi" "send_test" 1

/-- The SMS-test call of `test_sms_notification`. -/
def smsTestCall (c : Client) : ApiCall :=
  mkCall c "SYNO.Core.Notification.SMS" "entry.cgi" "send_test" 1

/-- The active-notification call of `get_active_notifications`. -/
def activeCall (c : Client) : ApiCall :=
  mkCall c "SYNO.Core.DSMNotify" "entry.cgi" "notify" 1 [("action", "load")]

/-- The system-health call of `get_system_health`. -/
def healthCall (c : Client) : ApiCall :=
  mkCall c "SYNO.Core.System.Status" "entry.cgi" "get" 1

/-- The backup-task listing call of `list_backup_tasks`. -/
def backupCall (c : Client) : ApiCall :=
  mkCall c "SYNO.Backup.Task" "entry.cgi" "list" 1

/-- The three calls of `get_notification_config` (push conf, mail conf,
webhook conf), issued in that order. -/
def configCalls (c : Client) : List ApiCall :=
  [mkCall c "SYNO.Core.Notification.Push.Conf" "entry.cgi" "get" 1,
   mkCall c "SYNO.Core.Notification.Mail.Conf" "entry.cgi" "get" 1,
   mkCall c "SYNO.Core.Notification.Webhook" "entry.cgi" "list" 1]

/-- An entry of the list `discover_notification_apis` returns: the API name
annotated with its path and min/max supported version. -/
structure ApiEntry where
  name : String
  path : Option String
  minVersion : Option Nat
  maxVersion : Option Nat
  deriving Repr, DecidableEq

/-- The fixed keyword list of `discover_notification_apis`. -/
def keywords : List String := ["notif", "alert", "push", "mail", "sms", "webhook"]

/-- The discovery filter: `any(keyword in api_name.lower() for keyword in
[...])`. -/
def keywordMatch (apiName : String) : Bool :=
  keywords.any (fun k => strHasSub (lowerStr apiName) k)

/-- `discover_notification_apis`: query the API catalogue; on failure
return the empty list, otherwise keep exactly the entries whose name
matches the keyword filter, each annotated with its path and version
range.  Returns the result list and the calls issued. -/
def discover_notification_apis (env : Env) (c : Client) :
    List ApiEntry × List ApiCall :=
  let info := doRequest env (infoCall c)
  if !info.success then ([], [infoCall c])
  else
    ((info.apis.filter (fun p => keywordMatch p.1)).map
      (fun p => ⟨p.1, p.2.path, p.2.minVersion, p.2.maxVersion⟩),
     [infoCall c])

/-- The `results` dictionary of `run_all_tests`; `mail` is initialised to
`None` and never assigned. -/
structure RunResults where
  webhook : Option SynoResponse := none
  push : Option SynoResponse := none
  mail : Option SynoResponse := none
  sms : Option SynoResponse := none
  health : Option SynoResponse := none
  active : Option SynoResponse := none
  deriving Repr, DecidableEq

/-- The per-provider webhook-test loop of `run_all_tests`: one test call
per listed provider (profile id read with default 1); `results["webhook"]`
keeps the last iteration's response. -/
def webhookLoop (env : Env) (c : Client) :
    List Provider → Option SynoResponse × List ApiCall
  | [] => (none, [])
  | p :: ps =>
    let r := doRequest env (webhookTestCall c (p.profile_id.getD 1))
    let rest := webhookLoop env c ps
    (some (rest.1.getD r), webhookTestCall c (p.profile_id.getD 1) :: rest.2)

/-- `run_all_tests`: list the webhook providers; if that succeeded, test
each provider's webhook; then unconditionally test push and SMS and fetch
system health and active notifications.  No individual failure aborts the
sequence.  Returns the results dictionary and the calls issued in order. -/
def run_all_tests (env : Env) (c : Client) : RunResults × List ApiCall :=
  let providers := doRequest env (providersListCall c)
  let wh :=
    if providers.success then webhookLoop env c providers.provList
    else (none, [])
  let push := doRequest env (pushTestCall c)
  let sms := doRequest env (smsTestCall c)
  let health := doRequest env (healthCall c)
  let active := doRequest env (activeCall c)
  ({ webhook := wh.1, push := some push, mail := none, sms := some sms,
     health := some health, active := some active },
   providersListCall c :: wh.2 ++
     [pushTestCall c, smsTestCall c, healthCall c, activeCall c])

/-- The three modes of `main`: `--discover`, `--config`, or the default
run-all-tests mode. -/
inductive Mode where
  | discover
  | config
  | normal
  deriving Repr, DecidableEq

/-- The in-session calls of the `try` block of `main`, by mode: discovery,
the three config fetches, or the default run-all-tests sequence followed by
the backup-task listing. -/
def bodyCalls (env : Env) (mode : Mode) (c : Client) : List ApiCall :=
  match mode with
  | .discover => (discover_notification_apis env c).2
  | .config => configCalls c
  | .normal => (run_all_tests env c).2 ++ [backupCall c]

/-- `main` from the point where the client is constructed: login first
(failure exits 1 immediately); then the mode's in-session calls inside a
`try` block whose `finally` runs `logout`; the return value after a
successful login is 0.  Produces the exit code and the full trace of issued
API calls. -/
def apiMain (env : Env) (mode : Mode) (username password : String) :
    Nat × List ApiCall :=
  let c0 : Client := ⟨none⟩
  let l := login env c0 username password
  if !l.2.1 then (1, l.2.2)
  else
    let c1 := l.1
    (0, l.2.2 ++ bodyCalls env mode c1 ++ (logout env c1).2)

/-- Case-insensitive substring containment, the spec's reading of the
discovery filter: `needle` occurs in `hay` once both are lower-cased. -/
def ciContains (hay needle : String) : Bool :=
  strHasSub (lowerStr hay) (lowerStr needle)

/-- A request-level transport failure as the spec describes it: a raised
connection error or timeout, or an HTTP error status (one for which
`raise_for_status` raises). -/
def transportFailure : HttpResult → Bool
  | .exc _ => true
  | .resp status _ => statusError status

/-- The failure reason of a transport failure: the exception's message, or
the rendering of the HTTP error. -/
def failureReason : HttpResult → String
  | .exc msg => msg
  | .resp status _ => httpErrorMsg status

/-- The API namespaces an in-session body call (any mode) can carry, used
to separate them from the auth calls and from the never-issued mail test. -/
def sessionApis : List String :=
  ["SYNO.API.Info",
   "SYNO.Core.Notification.Push.Conf",
   "SYNO.Core.Notification.Mail.Conf",
   "SYNO.Core.Notification.Webhook",
   "SYNO.Core.Notification.Push.Webhook.Provider",
   "SYNO.Core.Notification.Push",
   "SYNO.Core.Notification.SMS",
   "SYNO.Core.System.Status",
   "SYNO.Core.DSMNotify",
   "SYNO.Backup.Task"]

/-- Whether a call is the auth login call. -/
def isLoginCall (call : ApiCall) : Bool :=
  call.api == "SYNO.API.Auth" && call.method == "login"

/-- Whether a call is the auth logout call. -/
def isLogoutCall (call : ApiCall) : Bool :=
  call.api == "SYNO.API.Auth" && call.method == "logout"

/-- A server that answers every call with success and issues the empty
string as session id. -/
def envEmptySid : Env := fun _ => .resp 200 { success := true, sid := "" }

/-- A server that answers every call with success and session id
`"sid123"`. -/
def envAllOk : Env := fun _ => .resp 200 { success := true, sid := "sid123" }

/-- A server where login succeeds (session id `"sid123"`) but the push
notification test returns `success = false`. -/
def envPushFails : Env := fun call =>
  if call.api == "SYNO.Core.Notification.Push" then
    .resp 200 { success := false, error := some "push test failed" }
  else .resp 200 { success := true, sid := "sid123" }

/-- A server whose API-info query succeeds with a two-entry catalogue, one
notification-related and one not. -/
def envDiscover : Env := fun _ =>
  .resp 200
    { success := true, sid := "sid123",
      apis := [("SYNO.Core.Notification.Mail", ⟨some "entry.cgi", some 1, some 2⟩),
               ("SYNO.FileStation.List", ⟨some "entry.cgi", some 1, some 5⟩)] }

/-- A server that is unreachable: every call raises a connection error. -/
def envDown : Env := fun _ => .exc "Connection refused"

end TriggerAlertsApi

namespace SendMockAlerts

/-- Two fixtures whose dictionary insertion order (`b` before `a`) differs
from the lexicographic order of their names. -/
def c4Alerts : List (String × Alert) :=
  [("b", ⟨some "ERROR", some "Storage", "bodyB"⟩),
   ("a", ⟨some "WARN", some "Hardware", "bodyA"⟩)]

/-- No filters, delay 1 second, a real (non-dry, non-list) run. -/
def c4Args : Args :=
  { type := none, category := none, level := none, delay := 1,
    listMode := false, dryRun := false }

/-- Same arguments in dry-run mode. -/
def dryArgs : Args :=
  { type := none, category := none, level := none, delay := 1,
    listMode := false, dryRun := true }

/-- A webhook that accepts every POST with status 200. -/
def allOkOutcome : String → SendOutcome := fun _ => .status 200

end SendMockAlerts

/-- A string a truthy filter produced is non-empty. -/
theorem truthy_not_empty {o : Option String} {c : String} (h : truthy o = some c) :
    c.isEmpty = false := by
  cases o with
  | none => simp [truthy] at h
  | some s =>
    simp only [truthy] at h
    split at h
    · exact absurd h (by simp)
    · next hs =>
      cases h
      simpa using hs

/-- Lower-casing sends only the empty string to the empty string. -/
theorem lowerStr_eq_empty {s : String} (h : lowerStr s = "") : s = "" := by
  have hdata : s.data.map Char.toLower = [] := congrArg String.data h
  have hnil : s.data = [] := List.map_eq_nil_iff.mp hdata
  cases s with
  | mk d =>
    cases hnil
    rfl

namespace SendMockAlerts

/-- Inserting into a list is, up to permutation, consing. -/
theorem insertByName_perm (p : String × Alert) (l : List (String × Alert)) :
    List.Perm (insertByName p l) (p :: l) := by
  induction l with
  | nil => simp [insertByName]
  | cons q rest ih =>
    simp only [insertByName]
    split
    · exact (ih.cons q).trans (List.Perm.swap p q rest)
    · exact List.Perm.refl _

/-- The sort of the filtered items is a permutation of them. -/
theorem sortByName_perm (l : List (String × Alert)) : List.Perm (sortByName l) l := by
  induction l with
  | nil => exact List.Perm.refl _
  | cons p rest ih => exact (insertByName_perm p (sortByName rest)).trans (ih.cons p)

/-- In dry-run mode the loop reports one `Would send` line per item, in
order, counts every item as a success, and produces no other event. -/
theorem runLoop_dry (delay : ℚ) (outcome : String → SendOutcome)
    (lastKey : Option String) (l : List (String × Alert)) :
    runLoop true delay outcome lastKey l =
      ⟨l.map (fun p => Event.wouldSend p.1), l.length, 0⟩ := by
  induction l with
  | nil => rfl
  | cons p rest ih => cases p with | mk name alert => simp [runLoop, ih]

/-- In a real run the success counter counts exactly the items whose POST
was accepted. -/
theorem runLoop_success_count (delay : ℚ) (outcome : String → SendOutcome)
    (lastKey : Option String) (l : List (String × Alert)) :
    (runLoop false delay outcome lastKey l).success =
      l.countP (fun p => send_alert (outcome p.1)) := by
  induction l with
  | nil => rfl
  | cons p rest ih =>
    cases p with
    | mk name alert =>
      by_cases h : send_alert (outcome name) = true <;>
        simp [runLoop, List.countP_cons, h, ih]

/-- In a real run the failure counter counts exactly the items whose POST
was not accepted. -/
theorem runLoop_failed_count (delay : ℚ) (outcome : String → SendOutcome)
    (lastKey : Option String) (l : List (String × Alert)) :
    (runLoop false delay outcome lastKey l).failed =
      l.countP (fun p => !send_alert (outcome p.1)) := by
  induction l with
  | nil => rfl
  | cons p rest ih =>
    cases p with
    | mk name alert =>
      by_cases h : send_alert (outcome name) = true <;>
        simp [runLoop, List.countP_cons, h, ih]

/-- In a real run every item of the list is POSTed: no outcome stops the
loop. -/
theorem runLoop_post_mem (delay : ℚ) (outcome : String → SendOutcome)
    (lastKey : Option String) (l : List (String × Alert))
    (p : String × Alert) (hp : p ∈ l) :
    Event.post p.1 ∈ (runLoop false delay outcome lastKey l).events := by
  induction l with
  | nil => cases hp
  | cons q rest ih =>
    cases q with
    | mk name alert =>
      rcases List.mem_cons.mp hp with h | h
      · subst h
        simp [runLoop]
      · have hmem := ih h
        simp only [runLoop, List.mem_cons]
        right
        split
        · exact List.mem_cons_of_mem _ hmem
        · exact hmem

/-- Every POST event the loop produces names an item of its input list. -/
theorem runLoop_post_src (dry : Bool) (delay : ℚ) (outcome : String → SendOutcome)
    (lastKey : Option String) (l : List (String × Alert)) (n : String) :
    Event.post n ∈ (runLoop dry delay outcome lastKey l).events → ∃ a, (n, a) ∈ l := by
  induction l with
  | nil =>
    intro h
    cases dry <;> simp [runLoop] at h
  | cons q rest ih =>
    cases q with
    | mk name alert =>
      cases dry with
      | true =>
        intro h
        rw [runLoop_dry] at h
        simp at h
      | false =>
        intro h
        simp only [runLoop, Bool.false_eq_true, if_false, List.mem_cons,
          Event.post.injEq] at h
        rcases h with h | h
        · subst h
          exact ⟨alert, List.mem_cons_self _ _⟩
        · have h' : Event.post n ∈ (runLoop false delay outcome lastKey rest).events := by
            split at h
            · rcases List.mem_cons.mp h with hh | hh
              · exact absurd hh (by simp)
              · exact hh
            · exact h
          obtain ⟨a, ha⟩ := ih h'
          exact ⟨a, List.mem_cons_of_mem _ ha⟩

/-- A list's length splits into the items satisfying a Boolean predicate
and those falsifying it. -/
theorem countP_split {α : Type} (p : α → Bool) (l : List α) :
    l.countP p + l.countP (fun a => !p a) = l.length := by
  induction l with
  | nil => rfl
  | cons a rest ih =>
    by_cases h : p a = true <;>
      simp [List.countP_cons, h, ← ih] <;> omega

/-- The acceptance test of `send_alert`, written as the spec's status set. -/
theorem send_alert_eq_accepted (o : SendOutcome) :
    send_alert o =
      (match o with
       | SendOutcome.status code =>
         decide (code = 200 ∨ code = 201 ∨ code = 202 ∨ code = 204)
       | SendOutcome.exc _ => false) := by
  cases o with
  | status code =>
    apply Bool.eq_iff_iff.mpr
    simp [send_alert]
  | exc m => rfl

/-- The complement of the acceptance test. -/
theorem send_alert_not_accepted (o : SendOutcome) :
    (!send_alert o) =
      (match o with
       | SendOutcome.status code =>
         !decide (code = 200 ∨ code = 201 ∨ code = 202 ∨ code = 204)
       | SendOutcome.exc _ => true) := by
  cases o with
  | status code => rw [send_alert_eq_accepted (SendOutcome.status code)]
  | exc m => rfl

/-- What `main` reduces to when fixtures were loaded, `--list` is off and
the filter left something: the loop's output with the exit code derived
from the failure counter. -/
theorem main_run_eq (args : Args) (alerts : List (String × Alert))
    (outcome : String → SendOutcome)
    (hlist : args.listMode = false) (hae : alerts.isEmpty = false)
    (hne : (filterAlerts args alerts).isEmpty = false) :
    main args alerts outcome =
      { exitCode :=
          if (runLoop args.dryRun args.delay outcome
              ((filterAlerts args alerts).map Prod.fst).getLast?
              (sortByName (filterAlerts args alerts))).failed == 0 then 0 else 1,
        events := (runLoop args.dryRun args.delay outcome
            ((filterAlerts args alerts).map Prod.fst).getLast?
            (sortByName (filterAlerts args alerts))).events,
        success := (runLoop args.dryRun args.delay outcome
            ((filterAlerts args alerts).map Prod.fst).getLast?
            (sortByName (filterAlerts args alerts))).success,
        failed := (runLoop args.dryRun args.delay outcome
            ((filterAlerts args alerts).map Prod.fst).getLast?
            (sortByName (filterAlerts args alerts))).failed } := by
  simp only [main, hae, hlist, hne, Bool.false_eq_true, if_false]

/-- Every POST event of a run names a fixture of the filtered subset. -/
theorem main_post_src (args : Args) (alerts : List (String × Alert))
    (outcome : String → SendOutcome) (n : String) :
    Event.post n ∈ (main args alerts outcome).events →
      ∃ a, (n, a) ∈ filterAlerts args alerts := by
  intro h
  simp only [main] at h
  split at h
  · simp at h
  · split at h
    · simp at h
    · split at h
      · simp at h
      · obtain ⟨a, ha⟩ := runLoop_post_src _ _ _ _ _ _ h
        exact ⟨a, (sortByName_perm _).mem_iff.mp ha⟩

/-- The keep-condition of the filter loop, read as a conjunction of the
supplied predicates. -/
theorem keepAlert_iff (args : Args) (name : String) (alert : Alert) :
    keepAlert args name alert = true ↔
      ((∀ t, truthy args.type = some t → name = t) ∧
       (∀ c, truthy args.category = some c →
          lowerStr (alert.category.getD "") = lowerStr c) ∧
       (∀ l, truthy args.level = some l → alert.level = some l)) := by
  unfold keepAlert
  rcases h1 : truthy args.type with _ | t <;>
    rcases h2 : truthy args.category with _ | c <;>
      rcases h3 : truthy args.level with _ | l <;>
        simp [h1, h2, h3, and_assoc]

/-- C5: for every loaded fixture mapping and every combination of the
optional filters, a fixture is in the filtered subset exactly when it is a
loaded fixture satisfying all supplied predicates simultaneously (exact
name for a truthy `--type`, case-insensitive category equality for a truthy
`--category`, exact level for a truthy `--level`), and every webhook POST
the run performs names a fixture of that subset. -/
theorem c5_filtered_subset_exact (args : Args) (alerts : List (String × Alert))
    (outcome : String → SendOutcome) (name : String) (alert : Alert) :
    ((name, alert) ∈ filterAlerts args alerts ↔
      ((name, alert) ∈ alerts ∧
        (∀ t, truthy args.type = some t → name = t) ∧
        (∀ c, truthy args.category = some c →
          lowerStr (alert.category.getD "") = lowerStr c) ∧
        (∀ l, truthy args.level = some l → alert.level = some l))) ∧
    (∀ n, Event.post n ∈ (main args alerts outcome).events →
      ∃ a, (n, a) ∈ filterAlerts args alerts) := by
  constructor
  · constructor
    · intro hmem
      have hm := List.mem_filter.mp hmem
      exact ⟨hm.1, (keepAlert_iff args name alert).mp hm.2⟩
    · intro hc
      exact List.mem_filter.mpr ⟨hc.1, (keepAlert_iff args name alert).mpr hc.2⟩
  · exact fun n => main_post_src args alerts outcome n

/-- C10: filtering is total on fixtures with missing fields: a fixture
without a `category` is read as having the empty-string category and is
excluded by every truthy category filter; a fixture without a `level` is
excluded by every truthy level filter; with no truthy filter supplied such
a fixture passes the filter. -/
theorem c10_missing_fields_total (args : Args) (name : String) (alert : Alert) :
    (alert.category = none →
      ∀ c, truthy args.category = some c → keepAlert args name alert = false) ∧
    (alert.level = none →
      ∀ l, truthy args.level = some l → keepAlert args name alert = false) ∧
    (truthy args.type = none → truthy args.category = none →
      truthy args.level = none → keepAlert args name alert = true) := by
  refine ⟨?_, ?_, ?_⟩
  · intro hcat c hc
    have hne : c ≠ "" := by
      intro he
      subst he
      exact absurd (truthy_not_empty hc) (by decide)
    have hlne : lowerStr c ≠ "" := fun he => hne (lowerStr_eq_empty he)
    have hbeq : (lowerStr (alert.category.getD "") == lowerStr c) = false := by
      rw [hcat]
      exact beq_eq_false_iff_ne.mpr fun he => hlne he.symm
    unfold keepAlert
    rw [hc]
    simp [Option.all_some, hbeq]
  · intro hlvl l hl
    unfold keepAlert
    rw [hl, hlvl]
    simp [Option.all_some]
  · intro h1 h2 h3
    unfold keepAlert
    rw [h1, h2, h3]
    rfl

/-- C4: the code evaluated at a failing input.  The fixtures are loaded in
insertion order `b, a`; the non-dry run with delay 1 sends them in
lexicographic order `a, b` but performs the inter-send delay after `b`, the
final send, and not between `a` and `b`, because the delay guard compares
against the last key of the unsorted dictionary. -/
theorem c4_delay_misplacement :
    (main c4Args c4Alerts allOkOutcome).events =
      [Event.post "a", Event.post "b", Event.sleep] ∧
    (main c4Args c4Alerts allOkOutcome).exitCode = 0 := by decide

/-- C7: in a real (non-dry, non-list) run, the success counter equals the
number of sent fixtures whose POST returned a status in
{200, 201, 202, 204}, the failure counter equals the number whose POST
returned any other status or raised, the two counters sum to the size of
the filtered subset, and every fixture of the (sorted) subset is POSTed —
no outcome terminates the run. -/
theorem c7_send_counters (args : Args) (alerts : List (String × Alert))
    (outcome : String → SendOutcome)
    (hdry : args.dryRun = false) (hlist : args.listMode = false) :
    ((main args alerts outcome).success =
      (sortByName (filterAlerts args alerts)).countP
        (fun p => match outcome p.1 with
          | SendOutcome.status code =>
            decide (code = 200 ∨ code = 201 ∨ code = 202 ∨ code = 204)
          | SendOutcome.exc _ => false)) ∧
    ((main args alerts outcome).failed =
      (sortByName (filterAlerts args alerts)).countP
        (fun p => match outcome p.1 with
          | SendOutcome.status code =>
            !decide (code = 200 ∨ code = 201 ∨ code = 202 ∨ code = 204)
          | SendOutcome.exc _ => true)) ∧
    ((main args alerts outcome).success + (main args alerts outcome).failed =
      (filterAlerts args alerts).length) ∧
    (∀ p ∈ sortByName (filterAlerts args alerts),
      Event.post p.1 ∈ (main args alerts outcome).events) := by
  by_cases hae : alerts.isEmpty
  · have h0 : alerts = [] := by
      cases alerts
      · rfl
      · simp [List.isEmpty] at hae
    subst h0
    refine ⟨?_, ?_, ?_, ?_⟩ <;> simp [main, filterAlerts, sortByName, runLoop]
  · have hae' : alerts.isEmpty = false := by simpa using hae
    by_cases hne : (filterAlerts args alerts).isEmpty
    · have h0 : filterAlerts args alerts = [] := by
        rcases hf : filterAlerts args alerts with _ | _
        · rfl
        · rw [hf] at hne
          simp [List.isEmpty] at hne
      refine ⟨?_, ?_, ?_, ?_⟩ <;>
        simp [main, hae', hlist, hne, h0, sortByName, runLoop]
    · have hne' : (filterAlerts args alerts).isEmpty = false := by simpa using hne
      have heq := main_run_eq args alerts outcome hlist hae' hne'
      rw [heq, hdry]
      refine ⟨?_, ?_, ?_, ?_⟩
      · rw [runLoop_success_count]
        exact List.countP_congr fun q _ => by rw [send_alert_eq_accepted (outcome q.1)]
      · rw [runLoop_failed_count]
        exact List.countP_congr fun q _ => by rw [send_alert_not_accepted (outcome q.1)]
      · dsimp only
        rw [runLoop_success_count, runLoop_failed_count,
          ← (sortByName_perm (filterAlerts args alerts)).length_eq]
        exact countP_split (fun p => send_alert (outcome p.1))
          (sortByName (filterAlerts args alerts))
      · intro p hp
        exact runLoop_post_mem _ _ _ _ p hp

/-- C7 witness: the counter identity applied at a concrete run of two
fixtures against an all-accepting webhook. -/
theorem c7_send_counters_witness :
    (main c4Args c4Alerts allOkOutcome).success + (main c4Args c4Alerts allOkOutcome).failed =
      (filterAlerts c4Args c4Alerts).length :=
  (c7_send_counters c4Args c4Alerts allOkOutcome rfl rfl).2.2.1

/-- C9: a dry run reports exactly one `Would send` line per fixture of the
filtered subset (counted per fixture name; the loaded names are distinct,
being dictionary keys) and performs no webhook POST at all. -/
theorem c9_dry_run (args : Args) (alerts : List (String × Alert))
    (outcome : String → SendOutcome)
    (hdry : args.dryRun = true) (hlist : args.listMode = false)
    (hnodup : (alerts.map Prod.fst).Nodup) :
    (∀ n, ((main args alerts outcome).events.count (Event.wouldSend n)) =
      (if n ∈ (filterAlerts args alerts).map Prod.fst then 1 else 0)) ∧
    (∀ n, Event.post n ∉ (main args alerts outcome).events) := by
  by_cases hae : alerts.isEmpty
  · have h0 : alerts = [] := by
      cases alerts
      · rfl
      · simp [List.isEmpty] at hae
    subst h0
    constructor <;> intro n <;> simp [main, filterAlerts]
  · have hae' : alerts.isEmpty = false := by simpa using hae
    by_cases hne : (filterAlerts args alerts).isEmpty
    · have h0 : filterAlerts args alerts = [] := by
        rcases hf : filterAlerts args alerts with _ | _
        · rfl
        · rw [hf] at hne
          simp [List.isEmpty] at hne
      constructor <;> intro n <;> simp [main, hae', hlist, hne, h0]
    · have hne' : (filterAlerts args alerts).isEmpty = false := by simpa using hne
      have heq := main_run_eq args alerts outcome hlist hae' hne'
      have hsub : ((filterAlerts args alerts).map Prod.fst).Nodup := by
        refine List.Nodup.sublist (List.Sublist.map Prod.fst ?_) hnodup
        exact List.filter_sublist alerts
      rw [heq, hdry, runLoop_dry]
      constructor
      · intro n
        have hcm : (List.map (fun p => Event.wouldSend p.1)
              (sortByName (filterAlerts args alerts))).count (Event.wouldSend n) =
            List.countP (fun p => p.1 == n) (sortByName (filterAlerts args alerts)) := by
          rw [List.count, List.countP_map]
          exact List.countP_congr fun p _ => by simp
        rw [hcm, (sortByName_perm (filterAlerts args alerts)).countP_eq]
        have hcn : List.countP (fun p => p.1 == n) (filterAlerts args alerts) =
            ((filterAlerts args alerts).map Prod.fst).count n := by
          rw [List.count, List.countP_map]
          exact List.countP_congr fun p _ => Iff.rfl
        rw [hcn]
        by_cases hm : n ∈ (filterAlerts args alerts).map Prod.fst
        · rw [if_pos hm]
          exact List.count_eq_one_of_mem hsub hm
        · rw [if_neg hm]
          exact List.count_eq_zero_of_not_mem hm
      · intro n hmem
        simp at hmem

/-- C9 witness: the dry run over the two concrete fixtures reports the
fixture `a` exactly once. -/
theorem c9_dry_run_witness :
    (main dryArgs c4Alerts allOkOutcome).events.count (Event.wouldSend "a") = 1 := by
  have h := (c9_dry_run dryArgs c4Alerts allOkOutcome rfl rfl (by decide)).1 "a"
  rw [h]
  decide

end SendMockAlerts

namespace TriggerAlertsApi

/-- The webhook loop issues exactly one test call per listed provider, in
order. -/
theorem webhookLoop_trace (env : Env) (c : Client) (ps : List Provider) :
    (webhookLoop env c ps).2 =
      ps.map (fun pr => webhookTestCall c (pr.profile_id.getD 1)) := by
  induction ps with
  | nil => rfl
  | cons q rest ih => simp [webhookLoop, ih]

/-- The calls of `run_all_tests`, in order: the provider listing, one
webhook test per listed provider when the listing succeeded, then the push
test, the SMS test, the health fetch and the active-notification fetch. -/
theorem run_all_tests_trace (env : Env) (c : Client) :
    (run_all_tests env c).2 =
      providersListCall c ::
        (if (doRequest env (providersListCall c)).success = true
         then (doRequest env (providersListCall c)).provList.map
           (fun pr => webhookTestCall c (pr.profile_id.getD 1))
         else []) ++
        [pushTestCall c, smsTestCall c, healthCall c, activeCall c] := by
  by_cases h : (doRequest env (providersListCall c)).success = true
  · simp [run_all_tests, h, webhookLoop_trace]
  · simp only [Bool.not_eq_true] at h
    simp [run_all_tests, h]

/-- Every body call's API namespace is one of the fixed in-session set. -/
theorem bodyCalls_api_mem (env : Env) (mode : Mode) (c : Client) :
    ∀ call ∈ bodyCalls env mode c, call.api ∈ sessionApis := by
  intro call hc
  cases mode with
  | discover =>
    simp only [bodyCalls, discover_notification_apis] at hc
    split at hc <;>
      · simp only [List.mem_singleton] at hc
        subst hc
        exact show "SYNO.API.Info" ∈ sessionApis by decide
  | config =>
    simp only [bodyCalls, configCalls, List.mem_cons, List.not_mem_nil,
      or_false] at hc
    rcases hc with hc | hc | hc
    · subst hc
      exact show "SYNO.Core.Notification.Push.Conf" ∈ sessionApis by decide
    · subst hc
      exact show "SYNO.Core.Notification.Mail.Conf" ∈ sessionApis by decide
    · subst hc
      exact show "SYNO.Core.Notification.Webhook" ∈ sessionApis by decide
  | normal =>
    simp only [bodyCalls] at hc
    rcases List.mem_append.mp hc with hc | hc
    · rw [run_all_tests_trace] at hc
      rcases List.mem_cons.mp hc with hc | hc
      · subst hc
        exact show "SYNO.Core.Notification.Push.Webhook.Provider" ∈ sessionApis by decide
      · rcases List.mem_append.mp hc with hc | hc
        · split at hc
          · obtain ⟨pr, _, hpr⟩ := List.mem_map.mp hc
            subst hpr
            exact show "SYNO.Core.Notification.Push.Webhook.Provider" ∈ sessionApis by decide
          · simp at hc
        · simp only [List.mem_cons, List.not_mem_nil, or_false] at hc
          rcases hc with hc | hc | hc | hc
          · subst hc
            exact show "SYNO.Core.Notification.Push" ∈ sessionApis by decide
          · subst hc
            exact show "SYNO.Core.Notification.SMS" ∈ sessionApis by decide
          · subst hc
            exact show "SYNO.Core.System.Status" ∈ sessionApis by decide
          · subst hc
            exact show "SYNO.Core.DSMNotify" ∈ sessionApis by decide
    · simp only [List.mem_singleton] at hc
      subst hc
      exact show "SYNO.Backup.Task" ∈ sessionApis by decide

/-- No body call is a login or a logout call. -/
theorem bodyCalls_not_auth (env : Env) (mode : Mode) (c : Client) :
    ∀ call ∈ bodyCalls env mode c,
      isLoginCall call = false ∧ isLogoutCall call = false := by
  intro call hc
  have hmem := bodyCalls_api_mem env mode c call hc
  have hne : call.api ≠ "SYNO.API.Auth" := by
    intro heq
    rw [heq] at hmem
    exact absurd hmem (by decide)
  have hb : (call.api == "SYNO.API.Auth") = false := beq_eq_false_iff_ne.mpr hne
  constructor <;> simp [isLoginCall, isLogoutCall, hb]

/-- No body call carries the mail-test API namespace. -/
theorem bodyCalls_no_mail (env : Env) (mode : Mode) (c : Client) :
    ∀ call ∈ bodyCalls env mode c,
      (call.api == "SYNO.Core.Notification.Mail") = false := by
  intro call hc
  have hmem := bodyCalls_api_mem env mode c call hc
  refine beq_eq_false_iff_ne.mpr fun heq => ?_
  rw [heq] at hmem
  exact absurd hmem (by decide)

/-- Every call the logout step issues is the logout call. -/
theorem logout_trace_sub (env : Env) (c : Client) :
    ∀ call ∈ (logout env c).2, call = logoutAuthCall c := by
  intro call hc
  rcases htr : truthy c.sessionId with _ | s <;> simp [logout, htr] at hc
  exact hc

/-- With a non-empty session id the logout step issues exactly the logout
call. -/
theorem logout_trace_of_ne (env : Env) (s : String) (hs : s ≠ "") :
    (logout env ⟨some s⟩).2 = [logoutAuthCall ⟨some s⟩] := by
  have ht : truthy (some s) = some s := by
    simp [truthy, String.isEmpty_iff, hs]
  simp [logout, ht]

/-- With the empty string stored as session id the logout request is
skipped. -/
theorem logout_trace_empty (env : Env) :
    (logout env ⟨some ""⟩).2 = [] := by
  have ht : truthy (some "") = none := rfl
  simp [logout, ht]

/-- A failed login exits 1 having issued only the login call. -/
theorem apiMain_login_failed (env : Env) (mode : Mode) (u p : String)
    (h : (_request (env (loginAuthCall ⟨none⟩ u p))).success = false) :
    apiMain env mode u p = (1, [loginAuthCall ⟨none⟩ u p]) := by
  simp [apiMain, login, doRequest, h]

/-- A successful login issues the login call, then the mode's body calls,
then the logout step, and returns exit code 0. -/
theorem apiMain_login_ok (env : Env) (mode : Mode) (u p : String)
    (h : (_request (env (loginAuthCall ⟨none⟩ u p))).success = true) :
    apiMain env mode u p =
      (0, loginAuthCall ⟨none⟩ u p ::
        (bodyCalls env mode ⟨some (_request (env (loginAuthCall ⟨none⟩ u p))).sid⟩ ++
         (logout env ⟨some (_request (env (loginAuthCall ⟨none⟩ u p))).sid⟩).2)) := by
  simp [apiMain, login, doRequest, h]

end TriggerAlertsApi

namespace TriggerAlertsApi

/-- C1 counterexample: against a server whose successful login returns the
empty string as session id, the run issues no logout call at all even
though login succeeded, so logout is not attempted exactly once on every
exit path after a successful login. -/
theorem c1_counterexample :
    (_request (envEmptySid (loginAuthCall ⟨none⟩ "u" "p"))).success = true ∧
    (apiMain envEmptySid Mode.normal "u" "p").2.countP
      (fun call => isLogoutCall call) = 0 := by decide

/-- C1 (amended): every run opens with the login call; a failed login exits
1 without issuing any further call; after a successful login no further
login call is issued and, whenever the stored session token is non-empty,
the logout call is attempted exactly once, as the final call, on every exit
path — while a successful login that returns the empty-string token skips
the logout request. -/
theorem c1_session_lifecycle (env : Env) (mode : Mode) (u p : String) :
    ((apiMain env mode u p).2.head? = some (loginAuthCall ⟨none⟩ u p)) ∧
    ((_request (env (loginAuthCall ⟨none⟩ u p))).success = false →
      (apiMain env mode u p).1 = 1 ∧
      (apiMain env mode u p).2 = [loginAuthCall ⟨none⟩ u p]) ∧
    ((_request (env (loginAuthCall ⟨none⟩ u p))).success = true →
      (∀ call ∈ (apiMain env mode u p).2.tail, isLoginCall call = false) ∧
      ((_request (env (loginAuthCall ⟨none⟩ u p))).sid ≠ "" →
        (apiMain env mode u p).2.countP (fun call => isLogoutCall call) = 1 ∧
        (apiMain env mode u p).2.getLast? =
          some (logoutAuthCall ⟨some (_request (env (loginAuthCall ⟨none⟩ u p))).sid⟩)) ∧
      ((_request (env (loginAuthCall ⟨none⟩ u p))).sid = "" →
        (apiMain env mode u p).2.countP (fun call => isLogoutCall call) = 0)) := by
  by_cases h : (_request (env (loginAuthCall ⟨none⟩ u p))).success = true
  · rw [apiMain_login_ok env mode u p h]
    refine ⟨rfl, ?_, ?_⟩
    · intro hf
      exact absurd (hf ▸ h) (by decide)
    · intro _
      have hlogin0 : isLogoutCall (loginAuthCall ⟨none⟩ u p) = false :=
        show (("SYNO.API.Auth" == "SYNO.API.Auth") && ("login" == "logout")) = false by
          decide
      have hbody0 : (bodyCalls env mode
            ⟨some (_request (env (loginAuthCall ⟨none⟩ u p))).sid⟩).countP
          (fun call => isLogoutCall call) = 0 :=
        List.countP_eq_zero.mpr fun a ha => by
          simp [(bodyCalls_not_auth env mode _ a ha).2]
      refine ⟨?_, ?_, ?_⟩
      · intro call hcall
        rw [List.tail_cons] at hcall
        rcases List.mem_append.mp hcall with hb | hl
        · exact (bodyCalls_not_auth env mode _ call hb).1
        · have hsub := logout_trace_sub env _ call hl
          subst hsub
          exact show (("SYNO.API.Auth" == "SYNO.API.Auth") && ("logout" == "login")) = false
            by decide
      · intro hsne
        rw [logout_trace_of_ne env _ hsne]
        constructor
        · have hlc : isLogoutCall
              (logoutAuthCall ⟨some (_request (env (loginAuthCall ⟨none⟩ u p))).sid⟩) = true :=
            show (("SYNO.API.Auth" == "SYNO.API.Auth") && ("logout" == "logout")) = true by
              decide
          simp [List.countP_cons, List.countP_append, hlogin0, hbody0, hlc]
        · show ((loginAuthCall ⟨none⟩ u p ::
              bodyCalls env mode ⟨some (_request (env (loginAuthCall ⟨none⟩ u p))).sid⟩) ++
              [logoutAuthCall ⟨some (_request (env (loginAuthCall ⟨none⟩ u p))).sid⟩]).getLast? =
            some (logoutAuthCall ⟨some (_request (env (loginAuthCall ⟨none⟩ u p))).sid⟩)
          exact List.getLast?_concat _
      · intro hse
        rw [hse, logout_trace_empty env]
        have hbody0e : (bodyCalls env mode ⟨some ""⟩).countP
            (fun call => isLogoutCall call) = 0 :=
          List.countP_eq_zero.mpr fun a ha => by
            simp [(bodyCalls_not_auth env mode _ a ha).2]
        simp [List.countP_cons, List.countP_append, hlogin0, hbody0e]
  · have hf : (_request (env (loginAuthCall ⟨none⟩ u p))).success = false := by
      simpa using h
    rw [apiMain_login_failed env mode u p hf]
    refine ⟨rfl, fun _ => ⟨rfl, rfl⟩, fun ht => absurd ht h⟩

/-- C2 counterexample: a run in which login succeeds but the push test
returns success=false still exits with code 0, not 1. -/
theorem c2_counterexample :
    (apiMain envPushFails Mode.normal "u" "p").1 = 0 ∧
    (∃ call ∈ (apiMain envPushFails Mode.normal "u" "p").2,
      (_request (envPushFails call)).success = false) := by decide

/-- C2 (amended): the exit code is determined by the login call alone: 0
whenever login succeeded, regardless of the outcomes of the in-session
operations, and 1 exactly when login failed. -/
theorem c2_exit_code (env : Env) (mode : Mode) (u p : String) :
    (apiMain env mode u p).1 =
      (if (_request (env (loginAuthCall ⟨none⟩ u p))).success = true then 0 else 1) := by
  by_cases h : (_request (env (loginAuthCall ⟨none⟩ u p))).success = true
  · rw [apiMain_login_ok env mode u p h, if_pos h]
  · have hf : (_request (env (loginAuthCall ⟨none⟩ u p))).success = false := by
      simpa using h
    rw [apiMain_login_failed env mode u p hf, if_neg h]

/-- C3 counterexample: a default-mode run against an all-success server
issues the push test exactly once but never any call carrying the
mail-test API namespace: test mail is not part of the default sequence. -/
theorem c3_counterexample :
    (apiMain envAllOk Mode.normal "u" "p").2.countP
      (fun call => call.api == "SYNO.Core.Notification.Mail") = 0 ∧
    (apiMain envAllOk Mode.normal "u" "p").2.countP
      (fun call => call.api == "SYNO.Core.Notification.Push") = 1 := by decide

/-- C3 (amended): after a successful login the default mode issues, in
order, the webhook-provider listing, one webhook test per listed provider
when the listing succeeded, the push test, the SMS test, the system-health
fetch, the active-notification fetch and the backup-task listing, followed
by the logout step — and never a mail-test call. -/
theorem c3_default_sequence (env : Env) (u p : String)
    (h : (_request (env (loginAuthCall ⟨none⟩ u p))).success = true) :
    ((apiMain env Mode.normal u p).2 =
      loginAuthCall ⟨none⟩ u p ::
        providersListCall ⟨some (_request (env (loginAuthCall ⟨none⟩ u p))).sid⟩ ::
        ((if (doRequest env (providersListCall
              ⟨some (_request (env (loginAuthCall ⟨none⟩ u p))).sid⟩)).success = true
          then (doRequest env (providersListCall
              ⟨some (_request (env (loginAuthCall ⟨none⟩ u p))).sid⟩)).provList.map
            (fun pr => webhookTestCall
              ⟨some (_request (env (loginAuthCall ⟨none⟩ u p))).sid⟩ (pr.profile_id.getD 1))
          else []) ++
         (pushTestCall ⟨some (_request (env (loginAuthCall ⟨none⟩ u p))).sid⟩ ::
          smsTestCall ⟨some (_request (env (loginAuthCall ⟨none⟩ u p))).sid⟩ ::
          healthCall ⟨some (_request (env (loginAuthCall ⟨none⟩ u p))).sid⟩ ::
          activeCall ⟨some (_request (env (loginAuthCall ⟨none⟩ u p))).sid⟩ ::
          backupCall ⟨some (_request (env (loginAuthCall ⟨none⟩ u p))).sid⟩ ::
          (logout env ⟨some (_request (env (loginAuthCall ⟨none⟩ u p))).sid⟩).2))) ∧
    ((apiMain env Mode.normal u p).2.countP
      (fun call => call.api == "SYNO.Core.Notification.Mail") = 0) := by
  constructor
  · rw [apiMain_login_ok env Mode.normal u p h]
    simp only [bodyCalls, run_all_tests_trace, List.cons_append, List.append_assoc,
      List.nil_append, List.singleton_append]
  · have hnm : ∀ call ∈ (apiMain env Mode.normal u p).2,
        (call.api == "SYNO.Core.Notification.Mail") = false := by
      rw [apiMain_login_ok env Mode.normal u p h]
      intro call hcall
      rcases List.mem_cons.mp hcall with hc | hc
      · subst hc
        exact show ("SYNO.API.Auth" == "SYNO.Core.Notification.Mail") = false by decide
      · rcases List.mem_append.mp hc with hb | hl
        · exact bodyCalls_no_mail env Mode.normal _ call hb
        · have hsub := logout_trace_sub env _ call hl
          subst hsub
          exact show ("SYNO.API.Auth" == "SYNO.Core.Notification.Mail") = false by decide
    exact List.countP_eq_zero.mpr fun a ha => by simp [hnm a ha]

/-- C3 witness: the amended sequence instantiated against the all-success
server shows the mail-test API is never called in the default mode. -/
theorem c3_default_sequence_witness :
    (apiMain envAllOk Mode.normal "u" "p").2.countP
      (fun call => call.api == "SYNO.Core.Notification.Mail") = 0 :=
  (c3_default_sequence envAllOk "u" "p" (by decide)).2

/-- The discovery filter agrees with case-insensitive containment of the
keywords: the keywords are already lower case. -/
theorem keywordMatch_eq_ci (n : String) :
    keywordMatch n = (keywords.any fun k => ciContains n k) := rfl

/-- C6: when the API-info query succeeds, the discovery result contains an
entry exactly when the catalogue holds an API of that name whose name
contains, case-insensitively, one of the keywords
notif/alert/push/mail/sms/webhook, and the entry carries that API's path
and min/max supported version. -/
theorem c6_discovery_filter (env : Env) (c : Client)
    (h : (doRequest env (infoCall c)).success = true) :
    ∀ e : ApiEntry,
      (e ∈ (discover_notification_apis env c).1 ↔
        ∃ m : ApiMeta, (e.name, m) ∈ (doRequest env (infoCall c)).apis ∧
          (keywords.any fun k => ciContains e.name k) = true ∧
          e.path = m.path ∧ e.minVersion = m.minVersion ∧ e.maxVersion = m.maxVersion) := by
  intro e
  have hset : (discover_notification_apis env c).1 =
      ((doRequest env (infoCall c)).apis.filter (fun p => keywordMatch p.1)).map
        (fun p => ⟨p.1, p.2.path, p.2.minVersion, p.2.maxVersion⟩) := by
    simp [discover_notification_apis, h]
  rw [hset]
  constructor
  · intro he
    obtain ⟨q, hq, hmk⟩ := List.mem_map.mp he
    have hf := List.mem_filter.mp hq
    refine ⟨q.2, ?_, ?_, ?_, ?_, ?_⟩
    · have : (e.name, q.2) = q := by
        rw [← hmk]
      rw [this]
      exact hf.1
    · rw [← keywordMatch_eq_ci]
      have : e.name = q.1 := by rw [← hmk]
      rw [this]
      exact hf.2
    · rw [← hmk]
    · rw [← hmk]
    · rw [← hmk]
  · rintro ⟨m, hmem, hany, hp, hmin, hmax⟩
    refine List.mem_map.mpr ⟨(e.name, m), List.mem_filter.mpr ⟨hmem, ?_⟩, ?_⟩
    · rw [keywordMatch_eq_ci]
      exact hany
    · cases e with
      | mk en ep emin emax =>
        simp only at hp hmin hmax
        rw [← hp, ← hmin, ← hmax]

/-- C6 witness: the filter applied to a concrete two-entry catalogue. -/
theorem c6_discovery_filter_witness :
    ((⟨"SYNO.Core.Notification.Mail", some "entry.cgi", some 1, some 2⟩ : ApiEntry) ∈
        (discover_notification_apis envDiscover ⟨some "sid123"⟩).1 ↔
      ∃ m : ApiMeta,
        (("SYNO.Core.Notification.Mail" : String), m) ∈
          (doRequest envDiscover (infoCall ⟨some "sid123"⟩)).apis ∧
        (keywords.any fun k => ciContains "SYNO.Core.Notification.Mail" k) = true ∧
        (some "entry.cgi" : Option String) = m.path ∧
        (some 1 : Option Nat) = m.minVersion ∧
        (some 2 : Option Nat) = m.maxVersion) :=
  c6_discovery_filter envDiscover ⟨some "sid123"⟩ (by decide)
    ⟨"SYNO.Core.Notification.Mail", some "entry.cgi", some 1, some 2⟩

/-- C8: any request whose transport outcome is a failure — a raised
connection error or timeout, or an HTTP error status — is returned to the
caller as a parsed result with success=false carrying the failure reason as
the error description; `_request` is a total function, so no such failure
escapes as an exception. -/
theorem c8_transport_failure_result (env : Env) (call : ApiCall)
    (h : transportFailure (env call) = true) :
    (doRequest env call).success = false ∧
    (doRequest env call).error = some (failureReason (env call)) := by
  unfold doRequest
  rcases henv : env call with m | ⟨status, body⟩
  · exact ⟨rfl, rfl⟩
  · rw [henv] at h
    have hs : statusError status = true := by
      simpa [transportFailure] using h
    simp [_request, hs, failureReason]

/-- C8 witness: the unreachable server's connection error surfaces as a
success=false result with the exception text. -/
theorem c8_transport_failure_result_witness :
    (doRequest envDown (loginAuthCall ⟨none⟩ "u" "p")).success = false ∧
    (doRequest envDown (loginAuthCall ⟨none⟩ "u" "p")).error =
      some (failureReason (envDown (loginAuthCall ⟨none⟩ "u" "p"))) :=
  c8_transport_failure_result envDown (loginAuthCall ⟨none⟩ "u" "p") (by decide)

end TriggerAlertsApi
